import Mathlib

/-!
Verification of the excel-ai-backend pipeline execution engine.

This file shallowly embeds the pipeline-execution core of the repository:

* `services/column_id.py`   — `parse_column_id`, `resolve_column_id`
* `services/operations.py`  — `apply_rename_column`, `apply_drop_column`
* `services/validation.py`  — `validate_pipeline_operations`
* `tasks.py`                — `execute_pipeline` (on top of `models.py`'s
  `PipelineJob.mark_running` / `mark_succeeded` / `mark_failed`)
* `views/stream.py` + `views/helpers/stream_helpers.py` — the SSE
  progress stream loop.

Python dynamic values that flow through the validator and the operation
handlers are modelled by the JSON-like type `JVal`.  A worksheet is the
job-private in-memory sheet: a list of rows, each row a list of cell
values (`Option String`; `none` models an empty cell, whose openpyxl
`value` is Python `None`).  Raised `PipelineValidationError` /
`KeyError` / `ValueError` exceptions are modelled with `Except String`,
the payload being the exception text.  Python `str.strip` and
`str.split(":")` are modelled by `pyStrip` / `pySplit` over the
character list; Python `int(...)` by `pyInt?` (the rarely used
underscore digit-grouping of Python integer literals is not modelled).
-/

/-! ## Python string primitives -/

/-- Characters removed by Python `str.strip()` (whitespace). -/
def isPySpace (c : Char) : Bool := c.isWhitespace

/-- `str.strip()` on a character list: drop whitespace from both ends. -/
def stripChars (cs : List Char) : List Char :=
  ((cs.dropWhile isPySpace).reverse.dropWhile isPySpace).reverse

/-- Python `s.strip()`. -/
def pyStrip (s : String) : String := String.mk (stripChars s.data)

/-- Python `s.split(sep)` for a single-character separator: the list of
(possibly empty) segments between occurrences of `sep`. -/
def splitOnChar (sep : Char) : List Char → List (List Char)
  | [] => [[]]
  | c :: rest =>
    match splitOnChar sep rest with
    | [] => [[]]
    | g :: gs => if c = sep then [] :: g :: gs else (c :: g) :: gs

/-- Python `s.split(":")` returning strings. -/
def pySplit (s : String) (sep : Char) : List String :=
  (splitOnChar sep s.data).map String.mk

/-- Digit run to a number; `none` if empty or a non-digit appears. -/
def digitsToNat? : List Char → Option Nat
  | [] => none
  | cs => go cs 0
where
  go : List Char → Nat → Option Nat
    | [], acc => some acc
    | c :: rest, acc =>
      if c.isDigit then go rest (acc * 10 + (c.toNat - '0'.toNat)) else none

/-- Python `int(s)`: optional surrounding whitespace, optional sign,
then a non-empty digit run. -/
def pyInt? (s : String) : Option Int :=
  match stripChars s.data with
  | '+' :: rest => (digitsToNat? rest).map Int.ofNat
  | '-' :: rest => (digitsToNat? rest).map (fun n => -(n : Int))
  | cs => (digitsToNat? cs).map Int.ofNat

/-! ## Dynamic (JSON-like) Python values -/

/-- A Python value as it appears in the request payload / stored
`pipeline_operations` JSON: strings, numbers, lists, string-keyed
dicts (association list, unique keys), and everything else collapsed
to `other` (only its non-string-ness matters to the validator). -/
inductive JVal where
  | str (s : String)
  | num (n : Int)
  | list (items : List JVal)
  | obj (kvs : List (String × JVal))
  | other

/-- Python `d[k]` on a dict: first binding of the key. -/
def jget? (kvs : List (String × JVal)) (k : String) : Option JVal :=
  (kvs.find? (fun p => p.1 == k)).map (·.2)

/-- Python `set(d.keys()) == set(req)`. -/
def keySetEq (kvs : List (String × JVal)) (req : List String) : Bool :=
  req.all (fun k => kvs.any (fun p => p.1 == k)) &&
    kvs.all (fun p => req.contains p.1)

/-! ## Worksheet model -/

/-- An openpyxl cell value: `none` is Python `None` (empty cell). -/
abbrev Cell := Option String

/-- The job-private in-memory worksheet: rows of cell values.  Row and
column coordinates are 1-based, as in openpyxl. -/
abbrev Worksheet := List (List Cell)

/-- `ws.cell(row=r, column=c).value`: out-of-range cells read as `None`. -/
def wsCell (ws : Worksheet) (r c : Nat) : Cell :=
  ((ws.get? (r - 1)).getD []).getD (c - 1) none

/-- `_header_values(ws, header_row_idx)`: the current cell values of the
header row (its stored extent). -/
def headerValues (ws : Worksheet) (header_row_idx : Nat) : List Cell :=
  (ws.get? (header_row_idx - 1)).getD []

/-- Set index `i` (0-based) of `l` to `v`, padding with `d` as openpyxl
does when a written cell lies beyond the stored extent. -/
def listSet (l : List α) (i : Nat) (d : α) (v : α) : List α :=
  (l ++ List.replicate (i + 1 - l.length) d).set i v

/-- `ws.cell(row=r, column=c).value = v` (1-based coordinates). -/
def setCell (ws : Worksheet) (r c : Nat) (v : Cell) : Worksheet :=
  listSet ws (r - 1) [] (listSet ((ws.get? (r - 1)).getD []) (c - 1) none v)

/-- `ws.delete_cols(c, 1)`: remove column `c` (1-based) from every row;
rows shorter than `c` are unaffected. -/
def delete_cols (ws : Worksheet) (c : Nat) : Worksheet :=
  ws.map (fun row => row.eraseIdx (c - 1))

/-- String shown for a cell value inside an f-string
(`f"got '{cell.value}'"`): Python prints `None` for an empty cell. -/
def cellText : Cell → String
  | some v => v
  | none => "None"

/-! ## `services/column_id.py` -/

/-- The parsed `"<sheetName>:<columnOrder>:<columnName>"` reference
(`ColumnId` dataclass).  `column_order` is 0-based. -/
structure ColumnId where
  sheet_name : String
  column_order : Nat
  column_name : String
deriving DecidableEq

/-- The body of `parse_column_id` after the `isinstance(column_id,
str)` check: strip, split on `:` into exactly 3 parts, non-empty sheet
and column names, middle part a Python int `>= 0`. -/
def parse_column_id_str (s : String) : Except String ColumnId :=
  match pySplit (pyStrip s) ':' with
  | [sheet_name, col_order_raw, col_name] =>
    if sheet_name = "" then
      .error "columnId sheetName must be non-empty"
    else if col_name = "" then
      .error "columnId columnName must be non-empty"
    else
      match pyInt? col_order_raw with
      | none => .error "columnId columnOrder must be an integer"
      | some col_order =>
        if col_order < 0 then
          .error "columnId columnOrder must be >= 0"
        else
          .ok ⟨sheet_name, col_order.toNat, col_name⟩
  | _ =>
    .error "columnId must be in format '<sheetName>:<columnOrder>:<columnName>'"

/-- `parse_column_id(column_id)`: the raw value must be a string
(`isinstance` check), then parse strictly. -/
def parse_column_id (column_id : JVal) : Except String ColumnId :=
  match column_id with
  | .str s => parse_column_id_str s
  | _ => .error "columnId must be a string"

/-- `resolve_column_id(ws, selected_sheet, header_row_idx, column_id)`:
resolve against the current worksheet state, returning the 1-based
column index. -/
def resolve_column_id (ws : Worksheet) (selected_sheet : String)
    (header_row_idx : Nat) (column_id : JVal) : Except String Nat :=
  match parse_column_id column_id with
  | .error e => .error e
  | .ok parsed =>
    if parsed.sheet_name ≠ selected_sheet then
      .error ("columnId sheetName '" ++ parsed.sheet_name ++
        "' does not match selected sheet '" ++ selected_sheet ++ "'")
    else
      if wsCell ws header_row_idx (parsed.column_order + 1) ≠
          some parsed.column_name then
        .error ("columnId header mismatch. Expected header[" ++
          toString parsed.column_order ++ "] == '" ++ parsed.column_name ++
          "', got '" ++
          cellText (wsCell ws header_row_idx (parsed.column_order + 1)) ++ "'")
      else
        .ok (parsed.column_order + 1)

/-! ## `services/operations.py` -/

/-- The collision scan of `apply_rename_column`: walk the header values
(1-based position `pos`), skip the target column `col`, and report a
collision when a cell value equals the trimmed new name. -/
def collides (vals : List Cell) (pos col : Nat) (nn : String) : Bool :=
  match vals with
  | [] => false
  | v :: rest =>
    if pos = col then collides rest (pos + 1) col nn
    else if v = some nn then true
    else collides rest (pos + 1) col nn

/-- `apply_rename_column(ws, header_row_idx, selected_sheet, column_id,
new_name)`.  Mutation is modelled by returning the new worksheet. -/
def apply_rename_column (ws : Worksheet) (header_row_idx : Nat)
    (selected_sheet : String) (column_id new_name : JVal) :
    Except String Worksheet :=
  match new_name with
  | .str nn0 =>
    if pyStrip nn0 = "" then .error "newName must be a non-empty string"
    else
      match resolve_column_id ws selected_sheet header_row_idx column_id with
      | .error e => .error e
      | .ok col_idx =>
        if collides (headerValues ws header_row_idx) 1 col_idx (pyStrip nn0) then
          .error ("Rename collision: header already contains '" ++
            pyStrip nn0 ++ "'")
        else
          .ok (setCell ws header_row_idx col_idx (some (pyStrip nn0)))
  | _ => .error "newName must be a non-empty string"

/-- The resolution loop of `apply_drop_column`: resolve every id on the
current (pre-deletion) worksheet state, in order, aborting at the first
failure. -/
def resolveAll (ws : Worksheet) (selected_sheet : String)
    (header_row_idx : Nat) : List JVal → Except String (List Nat)
  | [] => .ok []
  | cid :: rest =>
    match resolve_column_id ws selected_sheet header_row_idx cid with
    | .error e => .error e
    | .ok p =>
      match resolveAll ws selected_sheet header_row_idx rest with
      | .error e => .error e
      | .ok ps => .ok (p :: ps)

/-- `sorted(set(resolved), reverse=True)`: the strictly descending
enumeration of the distinct resolved positions. -/
def sortedDescDedup (ps : List Nat) : List Nat :=
  List.insertionSort (· ≥ ·) ps.dedup

/-- `it` is a Python value that is not a string, or a string that is
empty after stripping (`not isinstance(cid, str) or not cid.strip()`). -/
def notNonEmptyStr (it : JVal) : Bool :=
  match it with
  | .str s => pyStrip s = ""
  | _ => true

/-- The raw string of a `JVal.str`; used for the duplicate check on the
raw (unstripped) `columnIds` entries. -/
def jStr? : JVal → Option String
  | .str s => some s
  | _ => none

/-- `apply_drop_column(ws, header_row_idx, selected_sheet, column_ids)`:
validate the raw list, resolve all ids before deleting anything, then
delete the distinct resolved positions from highest to lowest. -/
def apply_drop_column (ws : Worksheet) (header_row_idx : Nat)
    (selected_sheet : String) (column_ids : JVal) :
    Except String Worksheet :=
  match column_ids with
  | .list items =>
    if items.isEmpty then .error "columnIds must be a non-empty list"
    else if items.any notNonEmptyStr then
      .error "columnIds must contain non-empty strings only"
    else if (items.filterMap jStr?).dedup.length ≠
        (items.filterMap jStr?).length then
      .error "columnIds must not contain duplicates"
    else
      match resolveAll ws selected_sheet header_row_idx items with
      | .error e => .error e
      | .ok resolved =>
        .ok ((sortedDescDedup resolved).foldl delete_cols ws)
  | _ => .error "columnIds must be a list"

/-! ## `services/validation.py` -/

/-- `SUPPORTED_OPERATION_IDS`. -/
def SUPPORTED_OPERATION_IDS : List String := ["rename_column", "drop_column"]

/-- `ALLOWED_PARAMS_BY_OPERATION`. -/
def allowedParamsFor : String → List String
  | "rename_column" => ["columnId", "newName"]
  | "drop_column" => ["columnIds"]
  | _ => []

/-- A normalized operation, the dict
`{"id": op_id, "operationId": operation_id, "params": params}` returned
by `_validate_and_normalize_operation`. -/
structure NormOp where
  id : String
  operationId : String
  params : List (String × JVal)

/-- `_validate_and_normalize_operation(raw_op, idx, seen_ids)`: shape
check (exactly the keys `id`, `operationId`, `params`), then id
(string, stripped, non-empty, not seen), then operationId (supported),
then params (dict with exactly the allowed keys).  Returns the
normalized op and the grown `seen_ids`.  The reported index and the
missing/extra key sets of the Python messages are omitted from the
modelled error payloads. -/
def validateOne (raw_op : JVal) (seen_ids : List String) :
    Except String (NormOp × List String) :=
  match raw_op with
  | .obj kvs =>
    if keySetEq kvs ["id", "operationId", "params"] then
      match jget? kvs "id" with
      | some (.str s) =>
        let op_id := pyStrip s
        if op_id = "" then .error "operation id must be non-empty"
        else if seen_ids.contains op_id then
          .error ("Duplicate operation id: " ++ op_id)
        else
          match jget? kvs "operationId" with
          | some (.str operation_id) =>
            if SUPPORTED_OPERATION_IDS.contains operation_id then
              match jget? kvs "params" with
              | some (.obj pkvs) =>
                if keySetEq pkvs (allowedParamsFor operation_id) then
                  .ok (⟨op_id, operation_id, pkvs⟩, op_id :: seen_ids)
                else .error "Invalid params for operationId"
              | some _ => .error "params must be an object"
              | none => .error "KeyError: 'params'"
            else .error ("Unsupported operationId: " ++ operation_id)
          | some _ => .error "operationId must be a string"
          | none => .error "KeyError: 'operationId'"
      | some _ => .error "operation id must be a string"
      | none => .error "KeyError: 'id'"
    else .error "Each operation must have exactly keys: id, operationId, params."
  | _ => .error "operation must be an object"

/-- The sequential validation loop over the raw operation list,
threading `seen_ids` left to right. -/
def validateOps : List JVal → List String → Except String (List NormOp)
  | [], _ => .ok []
  | raw_op :: rest, seen_ids =>
    match validateOne raw_op seen_ids with
    | .error e => .error e
    | .ok (nop, seen') =>
      match validateOps rest seen' with
      | .error e => .error e
      | .ok nops => .ok (nop :: nops)

/-- `validate_pipeline_operations(pipeline_operations)`. -/
def validate_pipeline_operations (pipeline_operations : JVal) :
    Except String (List NormOp) :=
  match pipeline_operations with
  | .list ops => validateOps ops []
  | _ => .error "pipeline_operations must be a list"

/-! ## `models.py` — the persisted job record -/

/-- `PipelineJob.Status`. -/
inductive Status where
  | PENDING
  | RUNNING
  | SUCCEEDED
  | FAILED
deriving DecidableEq

/-- The fields of the persisted `PipelineJob` record that the engine
reads or writes.  The output artifact is modelled by the serialized
worksheet content; `started_at` / `finished_at` only record whether the
timestamp has been set. -/
structure Job where
  pipeline_operations : JVal
  status : Status
  error : Option String
  output_file : Option Worksheet
  celery_task_id : Option String
  started_at : Bool
  finished_at : Bool

/-- Python truthiness fallback `a or b` for optional strings. -/
def orTruthy (a b : Option String) : Option String :=
  match a with
  | some t => if t = "" then b else some t
  | none => b

/-- `PipelineJob.mark_running(task_id)`. -/
def mark_running (j : Job) (task_id : Option String) : Job :=
  { j with status := .RUNNING, started_at := true,
           celery_task_id := orTruthy task_id j.celery_task_id }

/-- `PipelineJob.mark_succeeded()`. -/
def mark_succeeded (j : Job) : Job :=
  { j with status := .SUCCEEDED, finished_at := true }

/-- `PipelineJob.mark_failed(error)`. -/
def mark_failed (j : Job) (error : String) : Job :=
  { j with status := .FAILED, error := some error, finished_at := true }

/-- The save in `tasks.py` lines 98–100: attach the output artifact and
clear any previous error, in one committed write, while the status is
still RUNNING. -/
def attach_output (j : Job) (ws : Worksheet) : Job :=
  { j with output_file := some ws, error := none }

/-! ## `tasks.py` — the execution engine -/

/-- Dispatch of one validated operation to its catalog handler
(`tasks.py` lines 56–76).  A missing params key raises `KeyError`; an
unknown operationId raises `ValueError`; both are modelled as error
text. -/
def applyOp (ws : Worksheet) (selected_sheet : String)
    (header_row_idx : Nat) (op : NormOp) : Except String Worksheet :=
  if op.operationId = "rename_column" then
    match jget? op.params "columnId" with
    | none => .error "KeyError: 'columnId'"
    | some cid =>
      match jget? op.params "newName" with
      | none => .error "KeyError: 'newName'"
      | some nn => apply_rename_column ws header_row_idx selected_sheet cid nn
  else if op.operationId = "drop_column" then
    match jget? op.params "columnIds" with
    | none => .error "KeyError: 'columnIds'"
    | some cids => apply_drop_column ws header_row_idx selected_sheet cids
  else .error ("Unsupported operationId: " ++ op.operationId)

/-- The sequential apply loop of `execute_pipeline`: operations in
order, each on the worksheet mutated by all prior ones; the first
raised error aborts the loop. -/
def runOps (ws : Worksheet) (selected_sheet : String)
    (header_row_idx : Nat) : List NormOp → Except String Worksheet
  | [] => .ok ws
  | op :: rest =>
    match applyOp ws selected_sheet header_row_idx op with
    | .error e => .error e
    | .ok ws' => runOps ws' selected_sheet header_row_idx rest

/-- The successive persisted states that one run of `execute_pipeline`
writes for the job, in commit order, starting after the job has been
loaded.  `task_id` is the Celery request id; `load` is the external
workbook extraction (`extract_selected_sheet_workbook`), an external
collaborator modelled by its outcome; `selected_sheet` is
`file_record.selected_sheet`.  The engine uses header row 1. -/
def execute_pipeline_states (job : Job) (task_id : Option String)
    (load : Except String Worksheet) (selected_sheet : String) : List Job :=
  let j1 := mark_running job (orTruthy task_id job.celery_task_id)
  match validate_pipeline_operations job.pipeline_operations with
  | .error e => [j1, mark_failed j1 e]
  | .ok ops =>
    match load with
    | .error e => [j1, mark_failed j1 e]
    | .ok ws =>
      match runOps ws selected_sheet 1 ops with
      | .error e => [j1, mark_failed j1 e]
      | .ok wsFinal =>
        let j2 := attach_output j1 wsFinal
        [j1, j2, mark_succeeded j2]

/-- The job record when `execute_pipeline` finishes. -/
def execute_pipeline (job : Job) (task_id : Option String)
    (load : Except String Worksheet) (selected_sheet : String) : Job :=
  (execute_pipeline_states job task_id load selected_sheet).getLastD job

/-- A job as created by the submission path (`views/execute.py`):
status PENDING, Django field defaults for error / output / task id /
timestamps. -/
def createJob (validated_ops : JVal) : Job :=
  { pipeline_operations := validated_ops, status := .PENDING,
    error := none, output_file := none, celery_task_id := none,
    started_at := false, finished_at := false }

/-- The submission decision of `PipelineExecuteView.post` (lines
33–46): the job record is created exactly when
`validate_pipeline_operations` does not raise (authentication and file
lookup, both external, assumed to succeed). -/
def submission_creates_job (pipeline_operations : JVal) : Bool :=
  match validate_pipeline_operations pipeline_operations with
  | .ok _ => true
  | .error _ => false

/-! ## `views/stream.py` — the progress stream -/

/-- The job fields the stream reads on each poll
(`refresh_from_db(fields=["status", "error", "celery_task_id",
"output_file"])`). -/
structure JobSnap where
  job_id : String
  status : Status
  error : Option String
  celery_task_id : Option String
deriving DecidableEq

/-- One emitted SSE event with the payload fields built in
`stream_helpers.py`. -/
inductive SEvent where
  | connected (job_id : String) (task_id : Option String) (status : Status)
  | jobStatus (job_id : String) (status : Status) (error : Option String)
  | taskState (job_id : String) (task_id : Option String) (state : String)
      (meta : Option String)
  | succeeded (job_id : String) (status : Status) (download_url : String)
  | failed (job_id : String) (status : Status) (error : Option String)
deriving DecidableEq

/-- The `event:` name of an emitted frame. -/
def eventName : SEvent → String
  | .connected _ _ _ => "connected"
  | .jobStatus _ _ _ => "job_status"
  | .taskState _ _ _ _ => "task_state"
  | .succeeded _ _ _ => "succeeded"
  | .failed _ _ _ => "failed"

/-- `maybe_emit_job_status_change(job, last_job_status)`: edge-triggered
on the persisted status (`last = none` before the first poll). -/
def maybe_emit_job_status_change (j : JobSnap) (last : Option Status) :
    Option SEvent × Option Status :=
  if last = some j.status then (none, last)
  else (some (.jobStatus j.job_id j.status j.error), some j.status)

/-- `maybe_emit_task_state_change`: consult the external Celery result
backend (its reported `(state, meta)` for this poll is an input),
suppressed when the job has no truthy task id or when both state and
meta are unchanged. -/
def maybe_emit_task_state_change (j : JobSnap) (task : String × Option String)
    (lastState : Option String) (lastMeta : Option String) :
    Option SEvent × Option String × Option String :=
  match j.celery_task_id with
  | none => (none, lastState, lastMeta)
  | some tid =>
    if tid = "" then (none, lastState, lastMeta)
    else
      let (st, m) := task
      if lastState = some st ∧ lastMeta = m then (none, lastState, lastMeta)
      else (some (.taskState j.job_id j.celery_task_id st m), some st, m)

/-- One observation per polling iteration: the refreshed job snapshot
and the Celery backend's reported (state, meta). -/
structure Poll where
  snap : JobSnap
  task : String × Option String
deriving DecidableEq

/-- The polling loop body of `event_stream` (`stream.py` lines 49–76),
given the finite sequence of observations the stream gets to make:
emit the edge-triggered `job_status`, then close with `succeeded` /
`failed` on a terminal status, else maybe emit `task_state` and poll
again. -/
def streamLoop : List Poll → Option Status → Option String →
    Option String → List SEvent
  | [], _, _, _ => []
  | p :: rest, lastJ, lastS, lastM =>
    let (ev?, lastJ') := maybe_emit_job_status_change p.snap lastJ
    let evs := ev?.toList
    if p.snap.status = .SUCCEEDED then
      evs ++ [.succeeded p.snap.job_id p.snap.status
        ("/api/pipeline/execution/" ++ p.snap.job_id ++ "/download/")]
    else if p.snap.status = .FAILED then
      evs ++ [.failed p.snap.job_id p.snap.status p.snap.error]
    else
      let (tev?, lastS', lastM') :=
        maybe_emit_task_state_change p.snap p.task lastS lastM
      evs ++ tev?.toList ++ streamLoop rest lastJ' lastS' lastM'

/-- `event_stream()`: the `connected` frame, then the polling loop with
all three `last_*` trackers starting at `None`. -/
def event_stream (j0 : JobSnap) (polls : List Poll) : List SEvent :=
  .connected j0.job_id j0.celery_task_id j0.status :: streamLoop polls none none none

/-! ## Deleting columns in descending order: specification and lemmas -/

/-- Specification-side description of column removal: keep the elements
of a row whose 1-based position (counting from `pos`) is not in `S`,
preserving relative order. -/
def keepFrom (pos : Nat) (S : List Nat) : List α → List α
  | [] => []
  | c :: rest =>
    if pos ∈ S then keepFrom (pos + 1) S rest
    else c :: keepFrom (pos + 1) S rest

theorem keepFrom_of_all_lt {S : List Nat} :
    ∀ (l : List α) (pos : Nat), (∀ s ∈ S, s < pos) → keepFrom pos S l = l := by
  intro l
  induction l with
  | nil => intro pos _; rfl
  | cons c rest ih =>
    intro pos h
    have hmem : pos ∉ S := fun hc => absurd (h pos hc) (by omega)
    simp only [keepFrom, if_neg hmem]
    rw [ih (pos + 1) (fun s hs => by have := h s hs; omega)]

theorem keepFrom_congr_mem {S T : List Nat}
    (h : ∀ x, x ∈ S ↔ x ∈ T) :
    ∀ (l : List α) (pos : Nat), keepFrom pos S l = keepFrom pos T l := by
  intro l
  induction l with
  | nil => intro pos; rfl
  | cons c rest ih =>
    intro pos
    by_cases hc : pos ∈ S
    · simp only [keepFrom, if_pos hc, if_pos ((h pos).mp hc)]
      exact ih (pos + 1)
    · simp only [keepFrom, if_neg hc, if_neg (fun hT => hc ((h pos).mpr hT))]
      rw [ih (pos + 1)]

theorem keepFrom_cons_eraseIdx {S : List Nat} {q : Nat}
    (hS : ∀ s ∈ S, s < q) :
    ∀ (l : List α) (pos : Nat), pos ≤ q →
      keepFrom pos (q :: S) l = keepFrom pos S (l.eraseIdx (q - pos)) := by
  intro l
  induction l with
  | nil => intro pos _; rfl
  | cons c rest ih =>
    intro pos hpos
    rcases Nat.eq_or_lt_of_le hpos with heq | hlt
    · subst heq
      have h0 : pos - pos = 0 := by omega
      simp only [keepFrom, h0, List.eraseIdx]
      have hmem : pos ∈ pos :: S := List.mem_cons_self pos S
      rw [if_pos hmem]
      rw [keepFrom_of_all_lt rest (pos + 1)
        (fun s hs => by rcases List.mem_cons.mp hs with h | h
                        · omega
                        · have := hS s h; omega)]
      rw [keepFrom_of_all_lt rest pos (fun s hs => hS s hs)]
    · have hq : q - pos = (q - (pos + 1)) + 1 := by omega
      have hne : pos ≠ q := by omega
      simp only [keepFrom, hq, List.eraseIdx]
      have hiff : pos ∈ q :: S ↔ pos ∈ S := by
        simp [List.mem_cons, hne]
      by_cases hc : pos ∈ S
      · rw [if_pos (hiff.mpr hc), if_pos hc, ih (pos + 1) (by omega)]
      · rw [if_neg (fun h => hc (hiff.mp h)), if_neg hc]
        rw [ih (pos + 1) (by omega)]

theorem foldl_eraseIdx_eq_keepFrom :
    ∀ (qs : List Nat), qs.Pairwise (· > ·) → (∀ q ∈ qs, 1 ≤ q) →
      ∀ (row : List α),
        qs.foldl (fun r q => r.eraseIdx (q - 1)) row = keepFrom 1 qs row := by
  intro qs
  induction qs with
  | nil =>
    intro _ _ row
    simp only [List.foldl_nil]
    exact (keepFrom_of_all_lt (S := []) row 1 (by simp)).symm
  | cons q rest ih =>
    intro hp h1 row
    have hrest : ∀ s ∈ rest, s < q := fun s hs =>
      (List.pairwise_cons.mp hp).1 s hs
    simp only [List.foldl_cons]
    rw [ih (List.pairwise_cons.mp hp).2 (fun s hs => h1 s (List.mem_cons_of_mem _ hs))
      (row.eraseIdx (q - 1))]
    rw [keepFrom_cons_eraseIdx hrest row 1 (h1 q (List.mem_cons_self q rest))]

theorem foldl_delete_cols_map (qs : List Nat) :
    ∀ ws : Worksheet,
      qs.foldl delete_cols ws =
        ws.map (fun row => qs.foldl (fun r q => r.eraseIdx (q - 1)) row) := by
  induction qs with
  | nil => intro ws; simp
  | cons q rest ih =>
    intro ws
    simp only [List.foldl_cons, delete_cols, ih, List.map_map]
    rfl

theorem sortedDescDedup_pairwise_gt (ps : List Nat) :
    (sortedDescDedup ps).Pairwise (· > ·) := by
  have hs : (sortedDescDedup ps).Pairwise (· ≥ ·) :=
    List.sorted_insertionSort (· ≥ ·) ps.dedup
  have hn : (sortedDescDedup ps).Nodup :=
    (List.perm_insertionSort (· ≥ ·) ps.dedup).nodup_iff.mpr (List.nodup_dedup ps)
  exact (hs.and hn).imp (fun h => by omega)

theorem mem_sortedDescDedup (ps : List Nat) (x : Nat) :
    x ∈ sortedDescDedup ps ↔ x ∈ ps :=
  (List.perm_insertionSort (· ≥ ·) ps.dedup).mem_iff.trans List.mem_dedup

/-! ## Lemmas about parsing and resolution -/

theorem parse_column_id_ok_strip_ne {s : String} {c : ColumnId}
    (h : parse_column_id (.str s) = .ok c) : pyStrip s ≠ "" := by
  intro heq
  have h2 : parse_column_id (.str s) =
      .error "columnId must be in format '<sheetName>:<columnOrder>:<columnName>'" := by
    show parse_column_id_str s = _
    unfold parse_column_id_str
    rw [heq]
    exact rfl
  rw [h2] at h
  exact Except.noConfusion h

theorem resolve_column_id_eq_match (ws : Worksheet) (sheet : String)
    (hdr : Nat) (cid : JVal) (parsed : ColumnId)
    (hp : parse_column_id cid = .ok parsed) :
    resolve_column_id ws sheet hdr cid =
      if parsed.sheet_name ≠ sheet then
        .error ("columnId sheetName '" ++ parsed.sheet_name ++
          "' does not match selected sheet '" ++ sheet ++ "'")
      else
        if wsCell ws hdr (parsed.column_order + 1) ≠
            some parsed.column_name then
          .error ("columnId header mismatch. Expected header[" ++
            toString parsed.column_order ++ "] == '" ++ parsed.column_name ++
            "', got '" ++
            cellText (wsCell ws hdr (parsed.column_order + 1)) ++ "'")
        else
          .ok (parsed.column_order + 1) := by
  unfold resolve_column_id
  rw [hp]

theorem resolve_column_id_ok_elim {ws : Worksheet} {sheet : String}
    {hdr : Nat} {cid : JVal} {p : Nat}
    (h : resolve_column_id ws sheet hdr cid = .ok p) :
    ∃ parsed : ColumnId, parse_column_id cid = .ok parsed ∧
      parsed.sheet_name = sheet ∧ p = parsed.column_order + 1 ∧
      wsCell ws hdr p = some parsed.column_name := by
  cases hp : parse_column_id cid with
  | error e =>
    have h2 : resolve_column_id ws sheet hdr cid = .error e := by
      unfold resolve_column_id
      rw [hp]
    rw [h2] at h
    exact Except.noConfusion h
  | ok parsed =>
    rw [resolve_column_id_eq_match ws sheet hdr cid parsed hp] at h
    by_cases h1 : parsed.sheet_name = sheet
    · rw [if_neg (not_not_intro h1)] at h
      by_cases h2 : wsCell ws hdr (parsed.column_order + 1) =
          some parsed.column_name
      · rw [if_neg (not_not_intro h2)] at h
        cases h
        exact ⟨parsed, rfl, h1, rfl, h2⟩

      · rw [if_pos h2] at h
        exact Except.noConfusion h
    · rw [if_pos h1] at h
      exact Except.noConfusion h

theorem resolve_column_id_ok_pos {ws : Worksheet} {sheet : String}
    {hdr : Nat} {cid : JVal} {p : Nat}
    (h : resolve_column_id ws sheet hdr cid = .ok p) : 1 ≤ p := by
  rcases resolve_column_id_ok_elim h with ⟨parsed, -, -, hp, -⟩
  omega

theorem resolve_column_id_ok_le_header {ws : Worksheet} {sheet : String}
    {hdr : Nat} {cid : JVal} {p : Nat}
    (h : resolve_column_id ws sheet hdr cid = .ok p) :
    p ≤ (headerValues ws hdr).length := by
  rcases resolve_column_id_ok_elim h with ⟨parsed, -, -, hp, hcell⟩
  by_contra hlen
  push_neg at hlen
  have hnone : wsCell ws hdr p = none := by
    unfold wsCell
    exact List.getD_eq_default _ _ (by
      show (headerValues ws hdr).length ≤ p - 1
      omega)
  rw [hnone] at hcell
  exact Option.noConfusion hcell

theorem resolve_column_id_ok_strip_ne {ws : Worksheet} {sheet : String}
    {hdr : Nat} {s : String} {p : Nat}
    (h : resolve_column_id ws sheet hdr (.str s) = .ok p) : pyStrip s ≠ "" := by
  rcases resolve_column_id_ok_elim h with ⟨parsed, hp, -, -, -⟩
  exact parse_column_id_ok_strip_ne hp

theorem forall₂_mem_left {α β : Type} {R : α → β → Prop} :
    ∀ {l1 : List α} {l2 : List β}, List.Forall₂ R l1 l2 →
      ∀ a ∈ l1, ∃ b ∈ l2, R a b := by
  intro l1 l2 h
  induction h with
  | nil => intro a ha; exact absurd ha (by simp)
  | @cons x y xs ys hr _ ih =>
    intro a ha
    rcases List.mem_cons.mp ha with rfl | ha
    · exact ⟨y, List.mem_cons_self y ys, hr⟩
    · rcases ih a ha with ⟨b, hb, hr2⟩
      exact ⟨b, List.mem_cons_of_mem _ hb, hr2⟩

theorem forall₂_mem_right {α β : Type} {R : α → β → Prop} :
    ∀ {l1 : List α} {l2 : List β}, List.Forall₂ R l1 l2 →
      ∀ b ∈ l2, ∃ a ∈ l1, R a b := by
  intro l1 l2 h
  induction h with
  | nil => intro b hb; exact absurd hb (by simp)
  | @cons x y xs ys hr _ ih =>
    intro b hb
    rcases List.mem_cons.mp hb with rfl | hb
    · exact ⟨x, List.mem_cons_self x xs, hr⟩
    · rcases ih b hb with ⟨a, ha, hr2⟩
      exact ⟨a, List.mem_cons_of_mem _ ha, hr2⟩

theorem resolveAll_ok_forall₂ {ws : Worksheet} {sheet : String} {hdr : Nat} :
    ∀ {items : List JVal} {ps : List Nat},
      resolveAll ws sheet hdr items = .ok ps →
      List.Forall₂ (fun cid p => resolve_column_id ws sheet hdr cid = .ok p)
        items ps := by
  intro items
  induction items with
  | nil =>
    intro ps h
    simp only [resolveAll] at h
    cases h
    exact List.Forall₂.nil
  | cons cid rest ih =>
    intro ps h
    simp only [resolveAll] at h
    cases hr : resolve_column_id ws sheet hdr cid with
    | error e => rw [hr] at h; exact Except.noConfusion h
    | ok p =>
      rw [hr] at h
      cases ha : resolveAll ws sheet hdr rest with
      | error e => rw [ha] at h; exact Except.noConfusion h
      | ok ps' =>
        rw [ha] at h
        cases h
        exact List.Forall₂.cons hr (ih ha)

theorem filterMap_jStr_map_str (ids : List String) :
    (ids.map JVal.str).filterMap jStr? = ids := by
  induction ids with
  | nil => rfl
  | cons i rest ih => simp [List.filterMap_cons, jStr?, ih]

/-- C4: for every worksheet, header row index (≥ 1) and non-empty
duplicate-free list of columnIds that all resolve on the current
worksheet state (to the position list `ps`), `apply_drop_column`
resolves every id before performing any deletion (all resolutions are
against the input worksheet `ws`), then deletes the distinct resolved
positions in strictly descending order; the resulting worksheet keeps,
in every row, exactly the cells whose 1-based column position is not a
resolved position, in their original relative order, and every
resolved position denotes a real header column. -/
theorem apply_drop_column_correct
    (ws : Worksheet) (hdr : Nat) (sheet : String) (ids : List String)
    (ps : List Nat)
    (hne : ids ≠ [])
    (hnd : ids.Nodup)
    (hres : resolveAll ws sheet hdr (ids.map JVal.str) = .ok ps) :
    apply_drop_column ws hdr sheet (.list (ids.map JVal.str)) =
      .ok (ws.map (fun row => keepFrom 1 ps row)) ∧
    (sortedDescDedup ps).Pairwise (· > ·) ∧
    (∀ p ∈ ps, 1 ≤ p ∧ p ≤ (headerValues ws hdr).length) := by
  have hfa := resolveAll_ok_forall₂ hres
  have hps : ∀ p ∈ ps, 1 ≤ p ∧ p ≤ (headerValues ws hdr).length := by
    intro p hp
    rcases forall₂_mem_right hfa p hp with ⟨cid, -, hr⟩
    exact ⟨resolve_column_id_ok_pos hr, resolve_column_id_ok_le_header hr⟩
  refine ⟨?_, sortedDescDedup_pairwise_gt ps, hps⟩
  have hitems_ne : ids.map JVal.str ≠ [] := fun hmap => hne (by simpa using hmap)
  have hempty : (ids.map JVal.str).isEmpty = false := by
    cases hm : ids.map JVal.str with
    | nil => exact absurd hm hitems_ne
    | cons a l => rfl
  have hany : (ids.map JVal.str).any notNonEmptyStr = false := by
    simp only [List.any_eq_false]
    intro it hit
    rcases List.mem_map.mp hit with ⟨i, hi, rfl⟩
    rcases forall₂_mem_left hfa (JVal.str i) hit with ⟨p, -, hr⟩
    simp only [notNonEmptyStr, decide_eq_true_eq]
    exact resolve_column_id_ok_strip_ne hr
  have hfm := filterMap_jStr_map_str ids
  have hcalc : apply_drop_column ws hdr sheet (.list (ids.map JVal.str)) =
      .ok ((sortedDescDedup ps).foldl delete_cols ws) := by
    simp [apply_drop_column, hempty, hany, hfm,
      List.dedup_eq_self.mpr hnd, hres]
  rw [hcalc]
  have hfun : ∀ row : List Cell,
      (sortedDescDedup ps).foldl (fun r q => r.eraseIdx (q - 1)) row =
        keepFrom 1 ps row := by
    intro row
    rw [foldl_eraseIdx_eq_keepFrom (sortedDescDedup ps)
      (sortedDescDedup_pairwise_gt ps)
      (fun q hq => (hps q ((mem_sortedDescDedup ps q).mp hq)).1) row]
    exact keepFrom_congr_mem (mem_sortedDescDedup ps) row 1
  rw [foldl_delete_cols_map]
  simp only [hfun]

/-- C4 witness: dropping `["Sheet1:2:C", "Sheet1:0:A"]` from a sheet
with header `A,B,C,D` removes both referenced columns; the survivors
`B,D` keep their original relative order. -/
theorem apply_drop_column_correct_witness :
    (apply_drop_column [[some "A", some "B", some "C", some "D"]] 1 "Sheet1"
        (.list (["Sheet1:2:C", "Sheet1:0:A"].map JVal.str)) =
      .ok ([[some "A", some "B", some "C", some "D"]].map
        (fun row => keepFrom 1 [3, 1] row)) ∧
      (sortedDescDedup [3, 1]).Pairwise (· > ·) ∧
      (∀ p ∈ [3, 1], 1 ≤ p ∧
        p ≤ (headerValues [[some "A", some "B", some "C", some "D"]] 1).length)) ∧
    apply_drop_column [[some "A", some "B", some "C", some "D"]] 1 "Sheet1"
        (.list (["Sheet1:2:C", "Sheet1:0:A"].map JVal.str)) =
      .ok [[some "B", some "D"]] :=
  ⟨apply_drop_column_correct [[some "A", some "B", some "C", some "D"]] 1
      "Sheet1" ["Sheet1:2:C", "Sheet1:0:A"] [3, 1]
      (by decide) (by decide) rfl,
    rfl⟩

/-- C10: the duplicate check of `apply_drop_column` is on the raw
columnId strings, while parsing strips surrounding whitespace, so
`"Sheet1:0:A"` and `" Sheet1:0:A "` pass the duplicate check yet
resolve to the same position; the call succeeds and deletes exactly one
column (one per distinct resolved position) although there are two
columnIds entries. -/
theorem apply_drop_column_whitespace_alias :
    (([JVal.str "Sheet1:0:A", JVal.str " Sheet1:0:A "].filterMap jStr?).dedup.length =
      ([JVal.str "Sheet1:0:A", JVal.str " Sheet1:0:A "].filterMap jStr?).length) ∧
    resolveAll [[some "A", some "B"]] "Sheet1" 1
      [JVal.str "Sheet1:0:A", JVal.str " Sheet1:0:A "] = .ok [1, 1] ∧
    apply_drop_column [[some "A", some "B"]] 1 "Sheet1"
      (.list [JVal.str "Sheet1:0:A", JVal.str " Sheet1:0:A "]) =
      .ok [[some "B"]] :=
  ⟨by decide, rfl, rfl⟩

/-! ## Cell-level lemmas about `setCell` -/

theorem listSet_getD_eq (l : List α) (i : Nat) (d v : α) :
    (listSet l i d v).getD i d = v := by
  unfold listSet
  have hlen : i < (l ++ List.replicate (i + 1 - l.length) d).length := by
    simp [List.length_append, List.length_replicate]
    omega
  rw [List.getD_eq_getElem?_getD, List.getElem?_set_eq_of_lt v hlen]
  rfl

theorem listSet_getD_ne (l : List α) (i j : Nat) (d v : α) (h : j ≠ i) :
    (listSet l i d v).getD j d = l.getD j d := by
  unfold listSet
  rw [List.getD_eq_getElem?_getD, List.getElem?_set_ne (by omega : i ≠ j)]
  by_cases hj : j < l.length
  · rw [List.getElem?_append_left hj, ← List.getD_eq_getElem?_getD]
  · push_neg at hj
    rw [List.getElem?_append_right hj]
    rw [List.getD_eq_default _ _ hj]
    by_cases hr : j - l.length < i + 1 - l.length
    · rw [List.getElem?_replicate_of_lt hr]
      rfl
    · rw [List.getElem?_eq_none]
      · rfl
      · simp [List.length_replicate]
        omega

theorem wsCell_setCell_self (ws : Worksheet) (r c : Nat) (v : Cell)
    (hr : 1 ≤ r) (hc : 1 ≤ c) :
    wsCell (setCell ws r c v) r c = v := by
  unfold wsCell setCell
  rw [show ((listSet ws (r - 1) []
      (listSet ((ws.get? (r - 1)).getD []) (c - 1) none v)).get? (r - 1)).getD [] =
    (listSet ws (r - 1) []
      (listSet ((ws.get? (r - 1)).getD []) (c - 1) none v)).getD (r - 1) [] from rfl]
  rw [listSet_getD_eq]
  exact listSet_getD_eq _ _ _ _

theorem wsCell_setCell_other (ws : Worksheet) (r c r' c' : Nat) (v : Cell)
    (hr : 1 ≤ r) (hc : 1 ≤ c) (hr' : 1 ≤ r') (hc' : 1 ≤ c')
    (hne : ¬(r' = r ∧ c' = c)) :
    wsCell (setCell ws r c v) r' c' = wsCell ws r' c' := by
  unfold wsCell setCell
  by_cases hrow : r' = r
  · subst hrow
    have hcne : c' ≠ c := fun hcc => hne ⟨rfl, hcc⟩
    rw [show ((listSet ws (r' - 1) []
        (listSet ((ws.get? (r' - 1)).getD []) (c - 1) none v)).get? (r' - 1)).getD [] =
      (listSet ws (r' - 1) []
        (listSet ((ws.get? (r' - 1)).getD []) (c - 1) none v)).getD (r' - 1) [] from rfl]
    rw [listSet_getD_eq]
    rw [listSet_getD_ne _ _ _ _ _ (by omega : c' - 1 ≠ c - 1)]
  · rw [show ((listSet ws (r - 1) []
        (listSet ((ws.get? (r - 1)).getD []) (c - 1) none v)).get? (r' - 1)).getD [] =
      (listSet ws (r - 1) []
        (listSet ((ws.get? (r - 1)).getD []) (c - 1) none v)).getD (r' - 1) [] from rfl]
    rw [listSet_getD_ne _ _ _ _ _ (by omega : r' - 1 ≠ r - 1)]
    rfl

/-! ## The rename collision scan -/

theorem collides_iff (col : Nat) (nn : String) :
    ∀ (vals : List Cell) (pos : Nat),
      collides vals pos col nn = true ↔
        ∃ j, j < vals.length ∧ pos + j ≠ col ∧ vals.getD j none = some nn := by
  intro vals
  induction vals with
  | nil => intro pos; simp [collides]
  | cons v rest ih =>
    intro pos
    simp only [collides]
    by_cases hp : pos = col
    · rw [if_pos hp, ih (pos + 1)]
      constructor
      · rintro ⟨j, hj, hne, hv⟩
        exact ⟨j + 1, by simpa using hj, by omega, by simpa using hv⟩
      · rintro ⟨j, hj, hne, hv⟩
        cases j with
        | zero => exact absurd (by omega) hne
        | succ j =>
          exact ⟨j, by simpa using hj, by omega, by simpa using hv⟩
    · rw [if_neg hp]
      by_cases hv : v = some nn
      · rw [if_pos hv]
        constructor
        · intro _
          exact ⟨0, by simp, by omega, by simpa using hv⟩
        · intro _; rfl
      · rw [if_neg hv, ih (pos + 1)]
        constructor
        · rintro ⟨j, hj, hne, hw⟩
          exact ⟨j + 1, by simpa using hj, by omega, by simpa using hw⟩
        · rintro ⟨j, hj, hne, hw⟩
          cases j with
          | zero => exact absurd (by simpa using hw) hv
          | succ j =>
            exact ⟨j, by simpa using hj, by omega, by simpa using hw⟩

theorem collides_header_iff (ws : Worksheet) (hdr col : Nat) (nn : String) :
    collides (headerValues ws hdr) 1 col nn = true ↔
      ∃ i, 1 ≤ i ∧ i ≠ col ∧ wsCell ws hdr i = some nn := by
  rw [collides_iff]
  constructor
  · rintro ⟨j, hj, hne, hv⟩
    refine ⟨1 + j, by omega, hne, ?_⟩
    show (headerValues ws hdr).getD (1 + j - 1) none = some nn
    rw [show 1 + j - 1 = j from by omega]
    exact hv
  · rintro ⟨i, h1, hne, hv⟩
    have hv' : (headerValues ws hdr).getD (i - 1) none = some nn := hv
    have hlt : i - 1 < (headerValues ws hdr).length := by
      by_contra hge
      push_neg at hge
      rw [List.getD_eq_default _ _ hge] at hv'
      exact Option.noConfusion hv'
    exact ⟨i - 1, hlt, by omega, hv'⟩

/-- C5: for every worksheet, header row index (≥ 1), columnId that
resolves to target column `col`, and newName non-empty after trimming:
if the trimmed newName already equals some header cell other than the
target column's own cell (exact, case-sensitive match), the rename
fails with a collision error (and, the embedding being functional, no
worksheet is produced, so nothing is modified); otherwise it succeeds,
sets exactly the target header cell to the trimmed newName, and leaves
every other cell unchanged. -/
theorem apply_rename_column_spec
    (ws : Worksheet) (hdr : Nat) (sheet : String) (cid nn : String)
    (col : Nat)
    (hhdr : 1 ≤ hdr)
    (hres : resolve_column_id ws sheet hdr (.str cid) = .ok col)
    (hnn : pyStrip nn ≠ "") :
    ((∃ i, 1 ≤ i ∧ i ≠ col ∧ wsCell ws hdr i = some (pyStrip nn)) →
      apply_rename_column ws hdr sheet (.str cid) (.str nn) =
        .error ("Rename collision: header already contains '" ++
          pyStrip nn ++ "'")) ∧
    (¬(∃ i, 1 ≤ i ∧ i ≠ col ∧ wsCell ws hdr i = some (pyStrip nn)) →
      apply_rename_column ws hdr sheet (.str cid) (.str nn) =
        .ok (setCell ws hdr col (some (pyStrip nn))) ∧
      wsCell (setCell ws hdr col (some (pyStrip nn))) hdr col =
        some (pyStrip nn) ∧
      (∀ r c, 1 ≤ r → 1 ≤ c → ¬(r = hdr ∧ c = col) →
        wsCell (setCell ws hdr col (some (pyStrip nn))) r c = wsCell ws r c)) := by
  have hcol := resolve_column_id_ok_pos hres
  have hbase : apply_rename_column ws hdr sheet (.str cid) (.str nn) =
      (if collides (headerValues ws hdr) 1 col (pyStrip nn) then
        .error ("Rename collision: header already contains '" ++
          pyStrip nn ++ "'")
      else .ok (setCell ws hdr col (some (pyStrip nn)))) := by
    simp only [apply_rename_column, if_neg hnn, hres]
  constructor
  · intro hcoll
    rw [hbase, if_pos ((collides_header_iff ws hdr col (pyStrip nn)).mpr hcoll)]
  · intro hnocoll
    have hcf : collides (headerValues ws hdr) 1 col (pyStrip nn) = false := by
      by_contra hc
      exact hnocoll ((collides_header_iff ws hdr col (pyStrip nn)).mp
        (by revert hc; cases collides (headerValues ws hdr) 1 col (pyStrip nn) <;> simp))
    refine ⟨by rw [hbase, hcf]; simp, ?_, ?_⟩
    · exact wsCell_setCell_self ws hdr col (some (pyStrip nn)) hhdr hcol
    · intro r c hr hc hne
      exact wsCell_setCell_other ws hdr col r c (some (pyStrip nn))
        hhdr hcol hr hc hne

/-- C5 witness: renaming `Name` to `Age` on a sheet whose header is
`Name,Age` hits the collision branch and fails with the collision
error. -/
theorem apply_rename_column_spec_witness :
    apply_rename_column [[some "Name", some "Age"]] 1 "Sheet1"
        (.str "Sheet1:0:Name") (.str "Age") =
      .error ("Rename collision: header already contains '" ++
        pyStrip "Age" ++ "'") :=
  (apply_rename_column_spec [[some "Name", some "Age"]] 1 "Sheet1"
      "Sheet1:0:Name" "Age" 1 (by omega) rfl (by decide)).1
    ⟨2, by omega, by omega, rfl⟩

/-! ## The parse/resolve characterization -/

theorem parse_column_id_ok_elim {raw : JVal} {c : ColumnId}
    (h : parse_column_id raw = .ok c) :
    ∃ (s ord : String) (k : Int),
      raw = .str s ∧
      pySplit (pyStrip s) ':' = [c.sheet_name, ord, c.column_name] ∧
      c.sheet_name ≠ "" ∧ c.column_name ≠ "" ∧
      pyInt? ord = some k ∧ 0 ≤ k ∧ c.column_order = k.toNat := by
  cases raw with
  | str s =>
    replace h : parse_column_id_str s = .ok c := h
    unfold parse_column_id_str at h
    rcases hsp : pySplit (pyStrip s) ':' with _ | ⟨a, _ | ⟨b, _ | ⟨cn, _ | ⟨d, rest⟩⟩⟩⟩ <;>
      rw [hsp] at h
    · exact Except.noConfusion h
    · exact Except.noConfusion h
    · exact Except.noConfusion h
    · by_cases ha : a = ""
      · simp only [if_pos ha] at h
        exact Except.noConfusion h
      · simp only [if_neg ha] at h
        by_cases hcn : cn = ""
        · simp only [if_pos hcn] at h
          exact Except.noConfusion h
        · simp only [if_neg hcn] at h
          cases hint : pyInt? b with
          | none =>
            rw [hint] at h
            exact Except.noConfusion h
          | some k =>
            rw [hint] at h
            by_cases hk : k < 0
            · simp only [if_pos hk] at h
              exact Except.noConfusion h
            · simp only [if_neg hk] at h
              injection h with h
              cases h
              exact ⟨s, b, k, rfl, hsp, ha, hcn, hint, by omega, rfl⟩
    · exact Except.noConfusion h
  | num n => exact Except.noConfusion h
  | list l => exact Except.noConfusion h
  | obj kvs => exact Except.noConfusion h
  | other => exact Except.noConfusion h

theorem parse_column_id_ok_intro (s sn ord cn : String) (k : Int)
    (hsplit : pySplit (pyStrip s) ':' = [sn, ord, cn])
    (h1 : sn ≠ "") (h2 : cn ≠ "") (h3 : pyInt? ord = some k) (h4 : 0 ≤ k) :
    parse_column_id (.str s) = .ok ⟨sn, k.toNat, cn⟩ := by
  show parse_column_id_str s = _
  unfold parse_column_id_str
  rw [hsplit]
  simp only [if_neg h1, if_neg h2, h3, if_neg (by omega : ¬k < 0)]

/-- C6: resolution succeeds and returns the 1-based index
`columnOrder + 1` exactly when the raw value is a string whose stripped
form splits on `:` into exactly three segments, the sheet-name segment
equals the selected sheet (case-sensitive) and is non-empty, the
column-name segment is non-empty, the middle segment parses as a
non-negative Python integer `k`, and the header cell at
`(headerRowIndex, k+1)` of the current worksheet equals the column-name
segment by exact value equality.  Every violation yields a validation
error (the `Except` is total, so not-ok is exactly the error case). -/
theorem resolve_column_id_ok_iff
    (ws : Worksheet) (sheet : String) (hdr : Nat) (raw : JVal) (n : Nat)
    (hhdr : 1 ≤ hdr) :
    resolve_column_id ws sheet hdr raw = .ok n ↔
      ∃ (s ord cn : String) (k : Int),
        raw = .str s ∧
        pySplit (pyStrip s) ':' = [sheet, ord, cn] ∧
        sheet ≠ "" ∧ cn ≠ "" ∧
        pyInt? ord = some k ∧ 0 ≤ k ∧
        wsCell ws hdr (k.toNat + 1) = some cn ∧
        n = k.toNat + 1 := by
  constructor
  · intro h
    rcases resolve_column_id_ok_elim h with ⟨parsed, hp, hsheet, hn, hcell⟩
    rcases parse_column_id_ok_elim hp with
      ⟨s, ord, k, hraw, hsplit, h1, h2, h3, h4, hord⟩
    refine ⟨s, ord, parsed.column_name, k, hraw, ?_, ?_, h2, h3, h4, ?_, ?_⟩
    · rw [← hsheet]; exact hsplit
    · rw [← hsheet]; exact h1
    · rw [show k.toNat + 1 = n from by omega]; exact hcell
    · omega
  · rintro ⟨s, ord, cn, k, rfl, hsplit, h1, h2, h3, h4, hcell, rfl⟩
    have hp := parse_column_id_ok_intro s sheet ord cn k hsplit h1 h2 h3 h4
    rw [resolve_column_id_eq_match ws sheet hdr (.str s) ⟨sheet, k.toNat, cn⟩ hp]
    rw [if_neg (not_not_intro rfl)]
    rw [if_neg (not_not_intro hcell)]

/-- C6 witness: `"Sheet1:0:A"` resolves to column 1 on a sheet whose
header row is `A` under selected sheet `Sheet1`. -/
theorem resolve_column_id_ok_iff_witness :
    resolve_column_id [[some "A"]] "Sheet1" 1 (.str "Sheet1:0:A") = .ok 1 :=
  (resolve_column_id_ok_iff [[some "A"]] "Sheet1" 1 (.str "Sheet1:0:A") 1
      (by omega)).mpr
    ⟨"Sheet1:0:A", "0", "A", 0, rfl, by decide, by decide, by decide,
      rfl, by decide, rfl, rfl⟩

/-! ## Validator lemmas -/

theorem validateOne_ok_elim {raw : JVal} {seen seen' : List String}
    {nop : NormOp} (h : validateOne raw seen = .ok (nop, seen')) :
    ∃ kvs s, raw = .obj kvs ∧ jget? kvs "id" = some (.str s) ∧
      nop.id = pyStrip s := by
  cases raw with
  | obj kvs =>
    simp only [validateOne] at h
    by_cases hks : keySetEq kvs ["id", "operationId", "params"] = true
    · rw [if_pos hks] at h
      cases hid : jget? kvs "id" with
      | none => rw [hid] at h; exact Except.noConfusion h
      | some v =>
        rw [hid] at h
        cases v with
        | str s =>
          by_cases hse : pyStrip s = ""
          · simp only [if_pos hse] at h
            exact Except.noConfusion h
          · simp only [if_neg hse] at h
            by_cases hdup : seen.contains (pyStrip s) = true
            · rw [if_pos hdup] at h
              exact Except.noConfusion h
            · rw [if_neg hdup] at h
              cases hoid : jget? kvs "operationId" with
              | none => rw [hoid] at h; exact Except.noConfusion h
              | some w =>
                rw [hoid] at h
                cases w with
                | str oid =>
                  by_cases hsup : SUPPORTED_OPERATION_IDS.contains oid = true
                  · simp only [if_pos hsup] at h
                    cases hpar : jget? kvs "params" with
                    | none => rw [hpar] at h; exact Except.noConfusion h
                    | some u =>
                      rw [hpar] at h
                      cases u with
                      | obj pkvs =>
                        by_cases hpk : keySetEq pkvs (allowedParamsFor oid) = true
                        · simp only [if_pos hpk] at h
                          injection h with h
                          injection h with h1 h2
                          exact ⟨kvs, s, rfl, hid, by rw [← h1]⟩
                        · simp only [if_neg hpk] at h
                          exact Except.noConfusion h
                      | str t => exact Except.noConfusion h
                      | num n => exact Except.noConfusion h
                      | list l => exact Except.noConfusion h
                      | other => exact Except.noConfusion h
                  · simp only [if_neg hsup] at h
                    exact Except.noConfusion h
                | num n => exact Except.noConfusion h
                | list l => exact Except.noConfusion h
                | obj kvs2 => exact Except.noConfusion h
                | other => exact Except.noConfusion h
        | num n => exact Except.noConfusion h
        | list l => exact Except.noConfusion h
        | obj kvs2 => exact Except.noConfusion h
        | other => exact Except.noConfusion h
    · rw [if_neg hks] at h
      exact Except.noConfusion h
  | str s => exact Except.noConfusion h
  | num n => exact Except.noConfusion h
  | list l => exact Except.noConfusion h
  | other => exact Except.noConfusion h

theorem validateOps_ok_spec :
    ∀ {ops : List JVal} {seen : List String} {out : List NormOp},
      validateOps ops seen = .ok out →
      out.length = ops.length ∧
      ∀ i raw, ops.get? i = some raw →
        ∃ nop kvs s, out.get? i = some nop ∧ raw = .obj kvs ∧
          jget? kvs "id" = some (.str s) ∧ nop.id = pyStrip s := by
  intro ops
  induction ops with
  | nil =>
    intro seen out h
    simp only [validateOps] at h
    cases h
    exact ⟨rfl, fun i raw hi => absurd hi (by simp)⟩
  | cons raw_op rest ih =>
    intro seen out h
    simp only [validateOps] at h
    cases hv : validateOne raw_op seen with
    | error e => rw [hv] at h; exact Except.noConfusion h
    | ok p =>
      rw [hv] at h
      rcases p with ⟨nop, seen2⟩
      replace h : (match validateOps rest seen2 with
        | Except.error e => (Except.error e : Except String (List NormOp))
        | Except.ok nops => Except.ok (nop :: nops)) = Except.ok out := h
      cases hr : validateOps rest seen2 with
      | error e => rw [hr] at h; exact Except.noConfusion h
      | ok nops =>
        rw [hr] at h
        cases h
        rcases ih hr with ⟨hlen, hidx⟩
        refine ⟨by simpa using hlen, ?_⟩
        intro i raw hi
        cases i with
        | zero =>
          rcases validateOne_ok_elim hv with ⟨kvs, s, hraw, hid, hnid⟩
          cases hi
          exact ⟨nop, kvs, s, rfl, hraw, hid, hnid⟩
        | succ i =>
          exact hidx i raw hi

/-- C7 counterexample: the validator strips the operation id, so an
accepted list whose element has id `" a "` is normalized to id `"a"`,
which is not the exact input id string. -/
theorem validator_output_id_not_exact :
    validate_pipeline_operations (.list [.obj [("id", .str " a "),
        ("operationId", .str "rename_column"),
        ("params", .obj [("columnId", .str "x"), ("newName", .str "y")])]]) =
      .ok [⟨"a", "rename_column",
        [("columnId", .str "x"), ("newName", .str "y")]⟩] ∧
    ("a" : String) ≠ " a " :=
  ⟨rfl, by decide⟩

/-- C7 (amended): for every operation list the validator accepts, the
normalized output has the same length and preserves order (output
element `i` corresponds to input element `i`), and each output element
carries the input element's `id` string with surrounding whitespace
stripped — hence exactly the input id whenever the input id has no
surrounding whitespace. -/
theorem validate_pipeline_operations_preserves
    (ops : List JVal) (out : List NormOp)
    (h : validate_pipeline_operations (.list ops) = .ok out) :
    out.length = ops.length ∧
    ∀ i raw, ops.get? i = some raw →
      ∃ nop kvs s, out.get? i = some nop ∧ raw = .obj kvs ∧
        jget? kvs "id" = some (.str s) ∧ nop.id = pyStrip s :=
  validateOps_ok_spec h

/-- C7 witness: a two-element accepted list keeps length, order and
(already-stripped) ids. -/
theorem validate_pipeline_operations_preserves_witness :
    ([⟨"a", "rename_column", [("columnId", .str "x"), ("newName", .str "y")]⟩,
      ⟨"b", "drop_column", [("columnIds", .list [.str "z"])]⟩] : List NormOp).length =
      ([.obj [("id", .str "a"), ("operationId", .str "rename_column"),
          ("params", .obj [("columnId", .str "x"), ("newName", .str "y")])],
        .obj [("id", .str "b"), ("operationId", .str "drop_column"),
          ("params", .obj [("columnIds", .list [.str "z"])])]] : List JVal).length ∧
    ∀ i raw,
      ([.obj [("id", .str "a"), ("operationId", .str "rename_column"),
          ("params", .obj [("columnId", .str "x"), ("newName", .str "y")])],
        .obj [("id", .str "b"), ("operationId", .str "drop_column"),
          ("params", .obj [("columnIds", .list [.str "z"])])]] : List JVal).get? i =
        some raw →
      ∃ nop kvs s,
        ([⟨"a", "rename_column", [("columnId", .str "x"), ("newName", .str "y")]⟩,
          ⟨"b", "drop_column", [("columnIds", .list [.str "z"])]⟩] : List NormOp).get? i =
          some nop ∧
        raw = .obj kvs ∧ jget? kvs "id" = some (.str s) ∧ nop.id = pyStrip s :=
  validate_pipeline_operations_preserves
    [.obj [("id", .str "a"), ("operationId", .str "rename_column"),
        ("params", .obj [("columnId", .str "x"), ("newName", .str "y")])],
      .obj [("id", .str "b"), ("operationId", .str "drop_column"),
        ("params", .obj [("columnIds", .list [.str "z"])])]]
    [⟨"a", "rename_column", [("columnId", .str "x"), ("newName", .str "y")]⟩,
      ⟨"b", "drop_column", [("columnIds", .list [.str "z"])]⟩]
    rfl

/-! ## Every raised error carries non-empty text -/

theorem str_len_zero_eq_empty {a : String} (h : a.length = 0) : a = "" := by
  cases a with
  | mk data =>
    cases data with
    | nil => rfl
    | cons c cs => exact absurd h (by simp [String.length])

theorem str_ne_empty_of_append_left {a : String} (b : String) (ha : a ≠ "") :
    a ++ b ≠ "" := by
  intro h
  apply ha
  have hl := congrArg String.length h
  rw [String.length_append] at hl
  exact str_len_zero_eq_empty (by
    have h0 : String.length "" = 0 := rfl
    omega)

theorem parse_column_id_str_error_ne {s e}
    (h : parse_column_id_str s = .error e) : e ≠ "" := by
  unfold parse_column_id_str at h
  rcases hsp : pySplit (pyStrip s) ':' with _ | ⟨a, _ | ⟨b, _ | ⟨cn, _ | ⟨d, rest⟩⟩⟩⟩ <;>
    rw [hsp] at h
  · injection h with h; cases h; decide
  · injection h with h; cases h; decide
  · injection h with h; cases h; decide
  · by_cases ha : a = ""
    · simp only [if_pos ha] at h
      cases h; decide
    · simp only [if_neg ha] at h
      by_cases hcn : cn = ""
      · simp only [if_pos hcn] at h
        cases h; decide
      · simp only [if_neg hcn] at h
        cases hint : pyInt? b with
        | none =>
          rw [hint] at h
          injection h with h; cases h; decide
        | some k =>
          rw [hint] at h
          by_cases hk : k < 0
          · simp only [if_pos hk] at h
            cases h; decide
          · simp only [if_neg hk] at h
            exact Except.noConfusion h
  · injection h with h; cases h; decide

theorem parse_column_id_error_ne {cid e}
    (h : parse_column_id cid = .error e) : e ≠ "" := by
  cases cid with
  | str s => exact parse_column_id_str_error_ne h
  | num n => injection h with h; cases h; decide
  | list l => injection h with h; cases h; decide
  | obj kvs => injection h with h; cases h; decide
  | other => injection h with h; cases h; decide

theorem resolve_column_id_error_ne {ws sheet hdr cid e}
    (h : resolve_column_id ws sheet hdr cid = .error e) : e ≠ "" := by
  cases hp : parse_column_id cid with
  | error e2 =>
    have h2 : resolve_column_id ws sheet hdr cid = .error e2 := by
      unfold resolve_column_id
      rw [hp]
    rw [h2] at h
    injection h with h
    cases h
    exact parse_column_id_error_ne hp
  | ok parsed =>
    rw [resolve_column_id_eq_match ws sheet hdr cid parsed hp] at h
    by_cases h1 : parsed.sheet_name = sheet
    · rw [if_neg (not_not_intro h1)] at h
      by_cases h2 : wsCell ws hdr (parsed.column_order + 1) =
          some parsed.column_name
      · rw [if_neg (not_not_intro h2)] at h
        exact Except.noConfusion h
      · rw [if_pos h2] at h
        injection h with h
        cases h
        repeat apply str_ne_empty_of_append_left
        decide
    · rw [if_pos h1] at h
      injection h with h
      cases h
      repeat apply str_ne_empty_of_append_left
      decide

theorem resolveAll_error_ne {ws sheet hdr} :
    ∀ {items : List JVal} {e : String},
      resolveAll ws sheet hdr items = .error e → e ≠ "" := by
  intro items
  induction items with
  | nil =>
    intro e h
    simp only [resolveAll] at h
    exact Except.noConfusion h
  | cons cid rest ih =>
    intro e h
    simp only [resolveAll] at h
    cases hr : resolve_column_id ws sheet hdr cid with
    | error e2 =>
      rw [hr] at h
      injection h with h
      cases h
      exact resolve_column_id_error_ne hr
    | ok p =>
      rw [hr] at h
      cases ha : resolveAll ws sheet hdr rest with
      | error e2 =>
        rw [ha] at h
        injection h with h
        cases h
        exact ih ha
      | ok ps =>
        rw [ha] at h
        exact Except.noConfusion h

theorem apply_rename_column_error_ne {ws hdr sheet cid nn e}
    (h : apply_rename_column ws hdr sheet cid nn = .error e) : e ≠ "" := by
  cases nn with
  | str nn0 =>
    simp only [apply_rename_column] at h
    by_cases hs : pyStrip nn0 = ""
    · rw [if_pos hs] at h
      injection h with h; cases h; decide
    · rw [if_neg hs] at h
      cases hr : resolve_column_id ws sheet hdr cid with
      | error e2 =>
        rw [hr] at h
        injection h with h
        cases h
        exact resolve_column_id_error_ne hr
      | ok col =>
        rw [hr] at h
        by_cases hc : collides (headerValues ws hdr) 1 col (pyStrip nn0) = true
        · simp only [if_pos hc] at h
          cases h
          repeat apply str_ne_empty_of_append_left
          decide
        · simp only [if_neg hc] at h
          exact Except.noConfusion h
  | num n =>
    replace h : (Except.error "newName must be a non-empty string" :
      Except String Worksheet) = .error e := h
    injection h with h; cases h; decide
  | list l =>
    replace h : (Except.error "newName must be a non-empty string" :
      Except String Worksheet) = .error e := h
    injection h with h; cases h; decide
  | obj kvs =>
    replace h : (Except.error "newName must be a non-empty string" :
      Except String Worksheet) = .error e := h
    injection h with h; cases h; decide
  | other =>
    replace h : (Except.error "newName must be a non-empty string" :
      Except String Worksheet) = .error e := h
    injection h with h; cases h; decide

theorem apply_drop_column_error_ne {ws hdr sheet cids e}
    (h : apply_drop_column ws hdr sheet cids = .error e) : e ≠ "" := by
  cases cids with
  | list items =>
    simp only [apply_drop_column] at h
    by_cases h1 : items.isEmpty = true
    · simp only [if_pos h1] at h
      cases h; decide
    · simp only [if_neg h1] at h
      by_cases h2 : items.any notNonEmptyStr = true
      · simp only [if_pos h2] at h
        cases h; decide
      · simp only [if_neg h2] at h
        by_cases h3 : (items.filterMap jStr?).dedup.length ≠
            (items.filterMap jStr?).length
        · rw [if_pos h3] at h
          injection h with h; cases h; decide
        · rw [if_neg h3] at h
          cases ha : resolveAll ws sheet hdr items with
          | error e2 =>
            rw [ha] at h
            injection h with h
            cases h
            exact resolveAll_error_ne ha
          | ok ps =>
            rw [ha] at h
            exact Except.noConfusion h
  | str s =>
    replace h : (Except.error "columnIds must be a list" :
      Except String Worksheet) = .error e := h
    injection h with h; cases h; decide
  | num n =>
    replace h : (Except.error "columnIds must be a list" :
      Except String Worksheet) = .error e := h
    injection h with h; cases h; decide
  | obj kvs =>
    replace h : (Except.error "columnIds must be a list" :
      Except String Worksheet) = .error e := h
    injection h with h; cases h; decide
  | other =>
    replace h : (Except.error "columnIds must be a list" :
      Except String Worksheet) = .error e := h
    injection h with h; cases h; decide

theorem applyOp_error_ne {ws sheet hdr op e}
    (h : applyOp ws sheet hdr op = .error e) : e ≠ "" := by
  unfold applyOp at h
  by_cases ho1 : op.operationId = "rename_column"
  · rw [if_pos ho1] at h
    cases hc : jget? op.params "columnId" with
    | none => rw [hc] at h; injection h with h; cases h; decide
    | some cid =>
      rw [hc] at h
      cases hn : jget? op.params "newName" with
      | none => rw [hn] at h; injection h with h; cases h; decide
      | some nn =>
        rw [hn] at h
        exact apply_rename_column_error_ne h
  · rw [if_neg ho1] at h
    by_cases ho2 : op.operationId = "drop_column"
    · rw [if_pos ho2] at h
      cases hc : jget? op.params "columnIds" with
      | none => rw [hc] at h; injection h with h; cases h; decide
      | some cids =>
        rw [hc] at h
        exact apply_drop_column_error_ne h
    · rw [if_neg ho2] at h
      injection h with h
      cases h
      apply str_ne_empty_of_append_left
      decide

/-! ## Engine branch computation lemmas -/

theorem runOps_append {sheet : String} {hdr : Nat} :
    ∀ {pre : List NormOp} {ws wsK : Worksheet},
      runOps ws sheet hdr pre = .ok wsK →
      ∀ rest, runOps ws sheet hdr (pre ++ rest) = runOps wsK sheet hdr rest := by
  intro pre
  induction pre with
  | nil =>
    intro ws wsK h rest
    simp only [runOps] at h
    cases h
    simp
  | cons op pre' ih =>
    intro ws wsK h rest
    simp only [runOps] at h
    rw [List.cons_append]
    simp only [runOps]
    cases hap : applyOp ws sheet hdr op with
    | error e => rw [hap] at h; exact Except.noConfusion h
    | ok ws' =>
      rw [hap] at h
      exact ih h rest

theorem execute_pipeline_states_validate_error
    (job : Job) (task_id : Option String) (load : Except String Worksheet)
    (selected_sheet : String) (e : String)
    (hval : validate_pipeline_operations job.pipeline_operations = .error e) :
    execute_pipeline_states job task_id load selected_sheet =
      [mark_running job (orTruthy task_id job.celery_task_id),
       mark_failed (mark_running job (orTruthy task_id job.celery_task_id)) e] := by
  simp only [execute_pipeline_states, hval]

theorem execute_pipeline_states_load_error
    (job : Job) (task_id : Option String) (selected_sheet : String)
    (ops : List NormOp) (e : String)
    (hval : validate_pipeline_operations job.pipeline_operations = .ok ops) :
    execute_pipeline_states job task_id (.error e) selected_sheet =
      [mark_running job (orTruthy task_id job.celery_task_id),
       mark_failed (mark_running job (orTruthy task_id job.celery_task_id)) e] := by
  simp only [execute_pipeline_states, hval]

theorem execute_pipeline_states_run_error
    (job : Job) (task_id : Option String) (selected_sheet : String)
    (ws : Worksheet) (ops : List NormOp) (e : String)
    (hval : validate_pipeline_operations job.pipeline_operations = .ok ops)
    (hrun : runOps ws selected_sheet 1 ops = .error e) :
    execute_pipeline_states job task_id (.ok ws) selected_sheet =
      [mark_running job (orTruthy task_id job.celery_task_id),
       mark_failed (mark_running job (orTruthy task_id job.celery_task_id)) e] := by
  simp only [execute_pipeline_states, hval, hrun]

theorem execute_pipeline_states_success
    (job : Job) (task_id : Option String) (selected_sheet : String)
    (ws wsF : Worksheet) (ops : List NormOp)
    (hval : validate_pipeline_operations job.pipeline_operations = .ok ops)
    (hrun : runOps ws selected_sheet 1 ops = .ok wsF) :
    execute_pipeline_states job task_id (.ok ws) selected_sheet =
      [mark_running job (orTruthy task_id job.celery_task_id),
       attach_output (mark_running job (orTruthy task_id job.celery_task_id)) wsF,
       mark_succeeded (attach_output
         (mark_running job (orTruthy task_id job.celery_task_id)) wsF)] := by
  simp only [execute_pipeline_states, hval, hrun]

/-- C1: if the stored operation list validates to `pre ++ op :: post`,
the operations in `pre` all succeed (producing worksheet `wsK`), and
`op` fails with error `e`, then: the apply loop aborts at `op` — for
every suffix the whole run yields exactly `op`'s error, so no operation
after the failing index is dispatched and the in-memory worksheet
reflects only the operations before it; the job finishes FAILED with
the non-empty error text stored; and the job's output artifact field is
untouched (no output is written or attached). -/
theorem execute_pipeline_abort_on_failure
    (job : Job) (task_id : Option String) (selected_sheet : String)
    (ws wsK : Worksheet) (pre post : List NormOp) (op : NormOp) (e : String)
    (hval : validate_pipeline_operations job.pipeline_operations =
      .ok (pre ++ op :: post))
    (hpre : runOps ws selected_sheet 1 pre = .ok wsK)
    (hop : applyOp wsK selected_sheet 1 op = .error e) :
    (∀ post' : List NormOp,
      runOps ws selected_sheet 1 (pre ++ op :: post') = .error e) ∧
    (execute_pipeline job task_id (.ok ws) selected_sheet).status = .FAILED ∧
    (execute_pipeline job task_id (.ok ws) selected_sheet).error = some e ∧
    e ≠ "" ∧
    (execute_pipeline job task_id (.ok ws) selected_sheet).output_file =
      job.output_file := by
  have habort : ∀ post' : List NormOp,
      runOps ws selected_sheet 1 (pre ++ op :: post') = .error e := by
    intro post'
    rw [runOps_append hpre (op :: post')]
    simp only [runOps, hop]
  have hstates := execute_pipeline_states_run_error job task_id selected_sheet
    ws (pre ++ op :: post) e hval (habort post)
  have hexec : execute_pipeline job task_id (.ok ws) selected_sheet =
      mark_failed (mark_running job (orTruthy task_id job.celery_task_id)) e := by
    unfold execute_pipeline
    rw [hstates]
    rfl
  refine ⟨habort, ?_, ?_, applyOp_error_ne hop, ?_⟩ <;> rw [hexec] <;> rfl

/-- The single validated operation of the C1 witness job: a rename
whose columnId claims header `Nope` while the sheet has header `A`. -/
def opFailC1 : NormOp :=
  ⟨"1", "rename_column",
    [("columnId", .str "Sheet1:0:Nope"), ("newName", .str "X")]⟩

/-- The C1 witness job record as created by the submission path. -/
def jobFailC1 : Job :=
  createJob (.list [.obj [("id", .str "1"),
    ("operationId", .str "rename_column"),
    ("params", .obj [("columnId", .str "Sheet1:0:Nope"),
      ("newName", .str "X")])]])

/-- C1 witness: a one-operation pipeline whose rename fails on a
header mismatch ends FAILED with the stored mismatch error and no
output. -/
theorem execute_pipeline_abort_on_failure_witness :
    (∀ post' : List NormOp,
      runOps [[some "A"]] "Sheet1" 1 ([] ++ opFailC1 :: post') =
        .error "columnId header mismatch. Expected header[0] == 'Nope', got 'A'") ∧
    (execute_pipeline jobFailC1 none (.ok [[some "A"]]) "Sheet1").status = .FAILED ∧
    (execute_pipeline jobFailC1 none (.ok [[some "A"]]) "Sheet1").error =
      some "columnId header mismatch. Expected header[0] == 'Nope', got 'A'" ∧
    ("columnId header mismatch. Expected header[0] == 'Nope', got 'A'" : String) ≠ "" ∧
    (execute_pipeline jobFailC1 none (.ok [[some "A"]]) "Sheet1").output_file =
      jobFailC1.output_file :=
  execute_pipeline_abort_on_failure jobFailC1 none "Sheet1" [[some "A"]]
    [[some "A"]] [] [] opFailC1
    "columnId header mismatch. Expected header[0] == 'Nope', got 'A'"
    rfl rfl rfl

/-- Rank of a status along the forward order
PENDING → RUNNING → {SUCCEEDED, FAILED}. -/
def statusRank : Status → Nat
  | .PENDING => 0
  | .RUNNING => 1
  | .SUCCEEDED => 2
  | .FAILED => 2

/-- C3: starting from a PENDING job, the sequence of persisted states
written by one engine run has status trace exactly
`PENDING, RUNNING, FAILED` or `PENDING, RUNNING, RUNNING, SUCCEEDED`
(the repeated RUNNING is the output-attachment write, which does not
touch the status): every transition the engine performs moves the
status forward in the order PENDING → RUNNING → {SUCCEEDED, FAILED},
the trace ends in a terminal status with no later transition, and
PENDING is never revisited. -/
theorem execute_pipeline_status_monotone
    (job : Job) (task_id : Option String) (load : Except String Worksheet)
    (selected_sheet : String) (h : job.status = .PENDING) :
    ((job :: execute_pipeline_states job task_id load selected_sheet).map
        Job.status = [.PENDING, .RUNNING, .FAILED] ∨
      (job :: execute_pipeline_states job task_id load selected_sheet).map
        Job.status = [.PENDING, .RUNNING, .RUNNING, .SUCCEEDED]) ∧
    List.Chain' (fun a b => statusRank a ≤ statusRank b)
      ((job :: execute_pipeline_states job task_id load selected_sheet).map
        Job.status) := by
  have hmain : (job :: execute_pipeline_states job task_id load
        selected_sheet).map Job.status = [.PENDING, .RUNNING, .FAILED] ∨
      (job :: execute_pipeline_states job task_id load selected_sheet).map
        Job.status = [.PENDING, .RUNNING, .RUNNING, .SUCCEEDED] := by
    cases hv : validate_pipeline_operations job.pipeline_operations with
    | error e =>
      left
      rw [execute_pipeline_states_validate_error job task_id load
        selected_sheet e hv]
      simp [mark_running, mark_failed, h]
    | ok ops =>
      cases load with
      | error e =>
        left
        rw [execute_pipeline_states_load_error job task_id selected_sheet
          ops e hv]
        simp [mark_running, mark_failed, h]
      | ok ws =>
        cases hr : runOps ws selected_sheet 1 ops with
        | error e =>
          left
          rw [execute_pipeline_states_run_error job task_id selected_sheet
            ws ops e hv hr]
          simp [mark_running, mark_failed, h]
        | ok wsF =>
          right
          rw [execute_pipeline_states_success job task_id selected_sheet
            ws wsF ops hv hr]
          simp [mark_running, attach_output, mark_succeeded, h]
  refine ⟨hmain, ?_⟩
  rcases hmain with h1 | h1 <;> rw [h1] <;>
    simp [List.chain'_cons, statusRank]

/-- A job with an empty (vacuously succeeding) operation list, as
created by the submission path. -/
def emptyOpsJob : Job := createJob (.list [])

/-- C3 witness: a concrete successful run realizes the
`PENDING, RUNNING, RUNNING, SUCCEEDED` trace. -/
theorem execute_pipeline_status_monotone_witness :
    (((emptyOpsJob :: execute_pipeline_states emptyOpsJob none
        (.ok [[]]) "Sheet1").map Job.status = [.PENDING, .RUNNING, .FAILED] ∨
      (emptyOpsJob :: execute_pipeline_states emptyOpsJob none
        (.ok [[]]) "Sheet1").map Job.status =
        [.PENDING, .RUNNING, .RUNNING, .SUCCEEDED]) ∧
    List.Chain' (fun a b => statusRank a ≤ statusRank b)
      ((emptyOpsJob :: execute_pipeline_states emptyOpsJob none
        (.ok [[]]) "Sheet1").map Job.status)) ∧
    (emptyOpsJob :: execute_pipeline_states emptyOpsJob none
      (.ok [[]]) "Sheet1").map Job.status =
      [.PENDING, .RUNNING, .RUNNING, .SUCCEEDED] :=
  ⟨execute_pipeline_status_monotone emptyOpsJob none (.ok [[]]) "Sheet1" rfl,
    rfl⟩

/-- C2 counterexample: on a successful run, the persisted state written
by the output-attachment save (`tasks.py` lines 98–100) has the output
artifact present while the status is still RUNNING — the claimed
"output present iff status == SUCCEEDED" fails in that reachable
state. -/
theorem output_attached_while_running :
    ((execute_pipeline_states emptyOpsJob none (.ok [[]]) "Sheet1").getD 1
      emptyOpsJob).status = .RUNNING ∧
    ((execute_pipeline_states emptyOpsJob none (.ok [[]]) "Sheet1").getD 1
      emptyOpsJob).output_file = some [[]] ∧
    ((execute_pipeline_states emptyOpsJob none (.ok [[]]) "Sheet1").getD 1
      emptyOpsJob).status ≠ .SUCCEEDED :=
  ⟨rfl, rfl, by decide⟩

/-- C2 (amended): along every engine run started on a freshly created
job (PENDING, no error, no output), every persisted state satisfies
`error` present iff status == FAILED; and the output artifact is
present iff the status is SUCCEEDED **or** the state is the transient
output-attachment write whose immediately following persisted state is
SUCCEEDED.  In particular the output is never set in any state other
than SUCCEEDED and the single commit directly preceding it, and it is
never partially set (the attachment is one committed write). -/
theorem execute_pipeline_field_invariants
    (job : Job) (task_id : Option String) (load : Except String Worksheet)
    (selected_sheet : String)
    (h1 : job.status = .PENDING) (h2 : job.error = none)
    (h3 : job.output_file = none) :
    ∀ i (hi : i < (job :: execute_pipeline_states job task_id load
        selected_sheet).length),
      (((job :: execute_pipeline_states job task_id load
          selected_sheet).get ⟨i, hi⟩).error ≠ none ↔
        ((job :: execute_pipeline_states job task_id load
          selected_sheet).get ⟨i, hi⟩).status = .FAILED) ∧
      (((job :: execute_pipeline_states job task_id load
          selected_sheet).get ⟨i, hi⟩).output_file ≠ none ↔
        (((job :: execute_pipeline_states job task_id load
            selected_sheet).get ⟨i, hi⟩).status = .SUCCEEDED ∨
          ∃ hj : i + 1 < (job :: execute_pipeline_states job task_id load
            selected_sheet).length,
            ((job :: execute_pipeline_states job task_id load
              selected_sheet).get ⟨i + 1, hj⟩).status = .SUCCEEDED)) := by
  cases hv : validate_pipeline_operations job.pipeline_operations with
  | error e =>
    rw [execute_pipeline_states_validate_error job task_id load
      selected_sheet e hv]
    intro i hi
    simp only [List.length_cons, List.length_nil] at hi
    interval_cases i <;>
      simp [List.get, mark_running, mark_failed, h1, h2, h3]
  | ok ops =>
    cases load with
    | error e =>
      rw [execute_pipeline_states_load_error job task_id selected_sheet
        ops e hv]
      intro i hi
      simp only [List.length_cons, List.length_nil] at hi
      interval_cases i <;>
        simp [List.get, mark_running, mark_failed, h1, h2, h3]
    | ok ws =>
      cases hr : runOps ws selected_sheet 1 ops with
      | error e =>
        rw [execute_pipeline_states_run_error job task_id selected_sheet
          ws ops e hv hr]
        intro i hi
        simp only [List.length_cons, List.length_nil] at hi
        interval_cases i <;>
          simp [List.get, mark_running, mark_failed, h1, h2, h3]
      | ok wsF =>
        rw [execute_pipeline_states_success job task_id selected_sheet
          ws wsF ops hv hr]
        intro i hi
        simp only [List.length_cons, List.length_nil] at hi
        interval_cases i <;>
          simp [List.get, mark_running, attach_output, mark_succeeded,
            h1, h2, h3]

/-- C2 witness: the amended invariant instantiated on a concrete
successful run, at the transient output-attachment state (index 2 of
the state sequence). -/
theorem execute_pipeline_field_invariants_witness :
    (((emptyOpsJob :: execute_pipeline_states emptyOpsJob none
        (.ok [[]]) "Sheet1").get ⟨2, by decide⟩).error ≠ none ↔
      ((emptyOpsJob :: execute_pipeline_states emptyOpsJob none
        (.ok [[]]) "Sheet1").get ⟨2, by decide⟩).status = .FAILED) ∧
    (((emptyOpsJob :: execute_pipeline_states emptyOpsJob none
        (.ok [[]]) "Sheet1").get ⟨2, by decide⟩).output_file ≠ none ↔
      (((emptyOpsJob :: execute_pipeline_states emptyOpsJob none
          (.ok [[]]) "Sheet1").get ⟨2, by decide⟩).status = .SUCCEEDED ∨
        ∃ hj : 2 + 1 < (emptyOpsJob :: execute_pipeline_states emptyOpsJob
          none (.ok [[]]) "Sheet1").length,
          ((emptyOpsJob :: execute_pipeline_states emptyOpsJob none
            (.ok [[]]) "Sheet1").get ⟨2 + 1, hj⟩).status = .SUCCEEDED)) :=
  execute_pipeline_field_invariants emptyOpsJob none (.ok [[]]) "Sheet1"
    rfl rfl rfl 2 (by decide)

/-! ## C8: duplicate columnIds pass submission validation -/

/-- The raw `pipeline_operations` payload of a drop_column request with
a duplicate entry in `columnIds`. -/
def dupDropOps : JVal :=
  .list [.obj [("id", .str "1"), ("operationId", .str "drop_column"),
    ("params", .obj [("columnIds",
      .list [.str "Sheet1:0:A", .str "Sheet1:0:A"])])]]

/-- C8 counterexample: submission-time validation
(`validate_pipeline_operations`, as called by `PipelineExecuteView.post`
before any job record is created) accepts a drop_column whose
`columnIds` contains a duplicate — the schema check only compares the
params key set and never inspects the `columnIds` items, so a job IS
created for this submission, contradicting the claim that validation
fails at submission time with no job created. -/
theorem duplicate_columnIds_pass_submission :
    submission_creates_job dupDropOps = true ∧
    validate_pipeline_operations dupDropOps =
      .ok [⟨"1", "drop_column",
        [("columnIds", .list [.str "Sheet1:0:A", .str "Sheet1:0:A"])]⟩] :=
  ⟨rfl, rfl⟩

/-- C8 (amended): a drop_column submission whose `columnIds` contains a
duplicate entry passes submission-time validation (so a job is
created); the duplicate is instead rejected during execution by
`apply_drop_column`'s own duplicate check, before any resolution or
deletion, so for every worksheet the job finishes FAILED with the
duplicate error stored and no output artifact attached. -/
theorem duplicate_columnIds_fail_at_execution :
    submission_creates_job dupDropOps = true ∧
    ∀ (ws : Worksheet) (selected_sheet : String),
      (execute_pipeline (createJob dupDropOps) none (.ok ws)
        selected_sheet).status = .FAILED ∧
      (execute_pipeline (createJob dupDropOps) none (.ok ws)
        selected_sheet).error = some "columnIds must not contain duplicates" ∧
      (execute_pipeline (createJob dupDropOps) none (.ok ws)
        selected_sheet).output_file = none := by
  refine ⟨rfl, ?_⟩
  intro ws selected_sheet
  have hval : validate_pipeline_operations
      (createJob dupDropOps).pipeline_operations =
      .ok [⟨"1", "drop_column",
        [("columnIds", .list [.str "Sheet1:0:A", .str "Sheet1:0:A"])]⟩] := rfl
  have hdrop : applyOp ws selected_sheet 1
      ⟨"1", "drop_column",
        [("columnIds", .list [.str "Sheet1:0:A", .str "Sheet1:0:A"])]⟩ =
      .error "columnIds must not contain duplicates" := rfl
  have hrun : runOps ws selected_sheet 1
      [⟨"1", "drop_column",
        [("columnIds", .list [.str "Sheet1:0:A", .str "Sheet1:0:A"])]⟩] =
      .error "columnIds must not contain duplicates" := by
    simp only [runOps, hdrop]
  have hstates := execute_pipeline_states_run_error (createJob dupDropOps)
    none selected_sheet ws _ _ hval hrun
  have hexec : execute_pipeline (createJob dupDropOps) none (.ok ws)
      selected_sheet =
      mark_failed (mark_running (createJob dupDropOps)
        (orTruthy none (createJob dupDropOps).celery_task_id))
        "columnIds must not contain duplicates" := by
    unfold execute_pipeline
    rw [hstates]
    rfl
  rw [hexec]
  exact ⟨rfl, rfl, rfl⟩

/-! ## C9: the stream on an already-SUCCEEDED job -/

/-- A job snapshot that is already SUCCEEDED when the stream connects. -/
def succeededSnap : JobSnap :=
  { job_id := "J", status := .SUCCEEDED, error := none,
    celery_task_id := some "T" }

/-- C9 counterexample: for a job already SUCCEEDED at connect time the
stream emits `connected`, then a `job_status` frame (the edge from the
initial `last_job_status = None` tracker to the observed SUCCEEDED),
then `succeeded` — not "exactly `connected` followed by `succeeded`" as
claimed. -/
theorem stream_emits_job_status_before_succeeded :
    (event_stream succeededSnap
        [⟨succeededSnap, ("SUCCESS", none)⟩]).map eventName =
      ["connected", "job_status", "succeeded"] ∧
    (event_stream succeededSnap
        [⟨succeededSnap, ("SUCCESS", none)⟩]).map eventName ≠
      ["connected", "succeeded"] :=
  ⟨rfl, by decide⟩

/-- C9 (amended): for every job whose persisted status is already
SUCCEEDED when the stream connects (so the first poll re-reads the same
snapshot), the emitted sequence is exactly `connected`, one
`job_status` frame reporting the already-terminal SUCCEEDED status, and
`succeeded`, after which the stream closes; no `job_status` frame for
any state the stream never observed (PENDING/RUNNING edges) and no
`task_state` frame is emitted, regardless of any further polls. -/
theorem stream_succeeded_at_connect
    (j : JobSnap) (task : String × Option String) (rest : List Poll)
    (h : j.status = .SUCCEEDED) :
    event_stream j (⟨j, task⟩ :: rest) =
      [.connected j.job_id j.celery_task_id j.status,
       .jobStatus j.job_id j.status j.error,
       .succeeded j.job_id j.status
         ("/api/pipeline/execution/" ++ j.job_id ++ "/download/")] := by
  unfold event_stream streamLoop maybe_emit_job_status_change
  simp [h]

/-- C9 witness: the amended event sequence on a concrete SUCCEEDED
job. -/
theorem stream_succeeded_at_connect_witness :
    event_stream succeededSnap [⟨succeededSnap, ("SUCCESS", none)⟩] =
      [.connected succeededSnap.job_id succeededSnap.celery_task_id
        succeededSnap.status,
       .jobStatus succeededSnap.job_id succeededSnap.status
        succeededSnap.error,
       .succeeded succeededSnap.job_id succeededSnap.status
        ("/api/pipeline/execution/" ++ succeededSnap.job_id ++ "/download/")] :=
  stream_succeeded_at_connect succeededSnap ("SUCCESS", none) [] rfl
